import Mathlib

/-!
Verification of the gtfa GitHub upload tool (src/main.py) against its
specification.  The Python source is shallowly embedded: every remote HTTP
interaction is represented by an explicitly injected outcome (a network-level
exception or an HTTP response), file-system contents are passed in as data,
and each operation of the tool becomes a pure Lean function over those
inputs returning its result together with the list of remote calls it issued.
-/

namespace GTFA

/-- JSON-like values, the shape of `r.json()` results in the source.  Only the
features the tool touches are modelled: objects with `.get` lookup, arrays
(directory listings), strings, numbers and null. -/
inductive J : Type
  | null : J
  | jstr (s : String) : J
  | num (n : Int) : J
  | arr (items : List J) : J
  | obj (fields : List (String × J)) : J

/-- Python `dict.get(key)`: `none` when the key is absent or the value is not
a dict (the source only calls `.get` after an `isinstance(data, dict)` check
or on a known dict). -/
def J.get : J → String → Option J
  | .obj fields, k => fields.lookup k
  | _, _ => none

/-- An HTTP response as the source observes it through `requests`:
`status` is `r.status_code`, `content` is whether `r.content` is non-empty,
and `json` is `some j` when `r.json()` parses and `none` when it would raise
`JSONDecodeError` (an empty body never parses). -/
structure Response where
  status : Nat
  content : Bool
  json : Option J

/-- The outcome of one `requests.request` call: `Except.error e` when the
transport raises (e.g. `requests.exceptions.ConnectionError`), `Except.ok r`
when an HTTP response comes back.  Exceptions are modelled by the `Except`
error channel throughout the client layer. -/
def Transport : Type := Except String Response

/-- `api_request` (src/main.py:90-97): builds headers and calls
`requests.request`, returning the response unchanged; a transport exception
propagates to the caller because nothing catches it. -/
def api_request (t : Transport) : Except String Response := t

/-- `r.json()`: the parsed body, or a raised `JSONDecodeError`. -/
def jsonOrRaise (r : Response) : Except String J :=
  match r.json with
  | some j => Except.ok j
  | none => Except.error "JSONDecodeError"

/-- The `r.json() if r.content else {"status": r.status_code}` pattern used by
the git-object wrappers: parsing a non-empty body can still raise. -/
def bodyOrStatus (r : Response) : Except String J :=
  if r.content then jsonOrRaise r else Except.ok (J.obj [("status", J.num r.status)])

/-- The success branch shared by `get_repo_contents`, `get_ref`, `create_blob`,
`create_tree`, `create_commit` and `update_ref`: on the success status the
body is parsed OUTSIDE any `try`, so a malformed body raises. -/
def okBranch (r : Response) : Except String (Bool × J) :=
  match jsonOrRaise r with
  | Except.error e => Except.error e
  | Except.ok j => Except.ok (true, j)

/-- The guarded failure branch of `get_repo_contents`/`get_ref`/`get_pages`:
`try: return False, r.json() except: return False, {"message": ...}`. -/
def failBranchGuarded (r : Response) : Except String (Bool × J) :=
  match r.json with
  | some j => Except.ok (false, j)
  | none => Except.ok (false, J.obj [("message", J.jstr ("HTTP " ++ toString r.status))])

/-- The unguarded failure branch of the git-object wrappers:
`(False, r.json() if r.content else {"status": ...})` — a malformed non-empty
body raises here too. -/
def failBranchRaw (r : Response) : Except String (Bool × J) :=
  match bodyOrStatus r with
  | Except.error e => Except.error e
  | Except.ok j => Except.ok (false, j)

/-- `get_repo_contents` (src/main.py:123-131).  On HTTP 200 it returns
`(True, r.json())` — the parse is NOT inside the `try`, so a malformed 200
body raises; on any other status it returns `(False, body)` and a parse
failure there is caught and replaced by an `HTTP <code>` message dict.  A
transport exception from `api_request` propagates. -/
def get_repo_contents (t : Transport) : Except String (Bool × J) :=
  match api_request t with
  | Except.error e => Except.error e
  | Except.ok r =>
    if r.status == 200 then okBranch r else failBranchGuarded r

/-- `get_file_sha` (src/main.py:133-137): `data.get("sha")` when the request
succeeded with a dict (single-file) response, `None` otherwise; an exception
from `get_repo_contents` propagates. -/
def get_file_sha (t : Transport) : Except String (Option J) :=
  match get_repo_contents t with
  | Except.error e => Except.error e
  | Except.ok (true, J.obj fields) => Except.ok ((J.obj fields).get "sha")
  | Except.ok _ => Except.ok none

/-- `get_ref` (src/main.py:165-172): same shape as `get_repo_contents`. -/
def get_ref (t : Transport) : Except String (Bool × J) :=
  match api_request t with
  | Except.error e => Except.error e
  | Except.ok r =>
    if r.status == 200 then okBranch r else failBranchGuarded r

/-- `create_blob` (src/main.py:174-178): `(True, r.json())` on 201, otherwise
`(False, r.json() if r.content else {"status": ...})`. -/
def create_blob (t : Transport) : Except String (Bool × J) :=
  match api_request t with
  | Except.error e => Except.error e
  | Except.ok r =>
    if r.status == 201 then okBranch r else failBranchRaw r

/-- `create_tree` (src/main.py:180-187). -/
def create_tree (t : Transport) : Except String (Bool × J) :=
  match api_request t with
  | Except.error e => Except.error e
  | Except.ok r =>
    if r.status == 201 then okBranch r else failBranchRaw r

/-- `create_commit` (src/main.py:189-194). -/
def create_commit (t : Transport) : Except String (Bool × J) :=
  match api_request t with
  | Except.error e => Except.error e
  | Except.ok r =>
    if r.status == 201 then okBranch r else failBranchRaw r

/-- `update_ref` (src/main.py:196-201): success status is 200. -/
def update_ref (t : Transport) : Except String (Bool × J) :=
  match api_request t with
  | Except.error e => Except.error e
  | Except.ok r =>
    if r.status == 200 then okBranch r else failBranchRaw r

/-- `create_or_update_file` (src/main.py:139-145): the ok flag is
`status ∈ (200, 201)` and the body expression is evaluated on every path. -/
def create_or_update_file (t : Transport) : Except String (Bool × J) :=
  match api_request t with
  | Except.error e => Except.error e
  | Except.ok r =>
    match bodyOrStatus r with
    | Except.error e => Except.error e
    | Except.ok j => Except.ok (r.status == 200 || r.status == 201, j)

/-- `delete_file` (src/main.py:147-153). -/
def delete_file (t : Transport) : Except String (Bool × J) :=
  match api_request t with
  | Except.error e => Except.error e
  | Except.ok r =>
    match bodyOrStatus r with
    | Except.error e => Except.error e
    | Except.ok j => Except.ok (r.status == 200, j)

/-- `Except.isOk` under a local name, to keep the statements elementary. -/
def exOk : {α : Type} → Except String α → Bool
  | _, Except.ok _ => true
  | _, Except.error _ => false

/-! ## Paths

A Python `Path` is represented by its `parts`: a list of segments.  `parts`
of a real path are never empty strings and never contain `'/'`; those facts
enter the theorems as hypotheses where they matter.  Joining with `"/"` is
embedded by `joinSlash`, and the segment structure of a produced string is
recovered by `segments` (split on `'/'`). -/

/-- Python `"/".join(parts)`. -/
def joinSlash : List String → String
  | [] => ""
  | [p] => p
  | p :: q :: ps => p ++ "/" ++ joinSlash (q :: ps)

/-- Split a character list on `'/'`; always returns at least one segment,
like Python `s.split("/")`. -/
def splitSlash : List Char → List String
  | [] => [""]
  | c :: cs =>
    if c == '/' then "" :: splitSlash cs
    else
      match splitSlash cs with
      | [] => [String.mk [c]]
      | t :: ts => String.mk (c :: t.data) :: ts

/-- The `'/'`-separated segments of a string. -/
def segments (s : String) : List String := splitSlash s.data

/-- A string free of `'/'` characters — the invariant every part of a real
Python `Path` satisfies. -/
abbrev noSlashIn (p : String) : Prop := ∀ c ∈ p.data, c ≠ '/'

/-- Remove trailing `'/'` characters. -/
def rstripSlash : List Char → List Char
  | [] => []
  | c :: cs =>
    match rstripSlash cs with
    | [] => if c == '/' then [] else [c]
    | d :: ds => c :: d :: ds

/-- Python `s.strip("/")`: leading and trailing `'/'` removed. -/
def stripSlashes (s : String) : String :=
  String.mk (rstripSlash (s.data.dropWhile (fun c => c == '/')))

/-- `Path.relative_to`: `some rel` when `file = base ++ rel`, otherwise the
Python call raises `ValueError` (`none`). -/
def relative_to (base file : List String) : Option (List String) :=
  if file.take base.length = base then some (file.drop base.length) else none

/-- The body of `path_to_repo_path` (src/main.py:237-242) once `rel` is in
hand: drop `"."`/`".."` parts of `rel`, then join under the stripped
`repo_base` when `repo_base` is non-empty. -/
def mapRepoPath (rel : List String) (repo_base : String) : String :=
  let parts := rel.filter (fun p => !(p == "." || p == ".."))
  if repo_base ≠ "" then joinSlash (stripSlashes repo_base :: parts)
  else joinSlash parts

/-- `path_to_repo_path` (src/main.py:237-242): `rel = file.relative_to(base)`
(raising, i.e. `none`, when `file` is not under `base`), then `mapRepoPath`. -/
def path_to_repo_path (local_base file_path : List String) (repo_base : String) :
    Option String :=
  (relative_to local_base file_path).map (fun rel => mapRepoPath rel repo_base)

/-! ## Local tree scanner -/

/-- One entry yielded by `folder.rglob("*")`: its parts relative to the
scanned folder, and whether `p.is_file()` holds. -/
structure FsEntry where
  relParts : List String
  isFile : Bool
deriving DecidableEq

/-- `gather_files_for_folder` (src/main.py:229-235): keep entries that are
files and whose full parts (`p.parts`, which include the scanned folder's own
parts) contain no member of `skip_patterns`.  With no argument the source
passes `skip_patterns = None`, i.e. the empty list. -/
def gather_files_for_folder (folderParts : List String) (entries : List FsEntry)
    (skip_patterns : List String) : List FsEntry :=
  entries.filter (fun e =>
    e.isFile && !(skip_patterns.any (fun part => (folderParts ++ e.relParts).contains part)))

/-! ## Batch commit builder (`op_upload_folder`, src/main.py:289-373)

The remote side of one batch run is injected as a `World`: the outcome each
call would have.  Every remote call the operation performs is also recorded
in an ordered trace (`BatchCall`), and the branch heads (`getRef`'s view,
mutated only by `updateRef`) are threaded explicitly. -/

/-- Outcome of one `create_blob` call: a raised transport/parse exception, or
the `(ok, resp)` pair the wrapper returns (`ok` iff HTTP 201). -/
inductive BlobOutcome
  | exn (e : String)
  | resp (ok : Bool) (body : J)

/-- Outcome of one of the later per-batch calls: a raised exception (network,
JSON or missing-key error), a returned failure `(False, body)`, or success
with the value the source extracts from the response. -/
inductive StepOutcome (α : Type)
  | exn (e : String)
  | fail (body : J)
  | ok (v : α)

/-- A tree entry as built at src/main.py:340:
`{"path": repo_path, "mode": "100644", "type": "blob", "sha": blob_sha}`
with `blob_sha = resp_blob.get("sha")`. -/
structure TreeEntry where
  path : String
  mode : String
  type : String
  sha : Option J

/-- One remote call of the folder-upload operation, with the arguments the
source passes. -/
inductive BatchCall
  | createBlobC (name : String)
  | getRefC (branch : String)
  | getCommitC (sha : String)
  | createTreeC (entries : List TreeEntry) (base_tree : String)
  | createCommitC (message : String) (tree : Option String) (parents : List String)
  | updateRefC (branch : String) (sha : Option String) (force : Bool)
  | getShaC (path : String)
  | putFileC (path : String) (sha : Option J)

/-- What `op_upload_folder` reports when it returns. -/
inductive BatchResult
  | noFiles
  | blobFailuresAbort (fails : List (String × J))
  | refError
  | commitFetchError
  | treeError
  | commitError
  | updateError
  | raised (e : String)
  | success (sha : Option String)
  | perFileDone (successes : Nat) (fails : List (String × J))

/-- The injected remote/local outcomes for one folder-upload run.  Each field
is the outcome of the one call the operation makes with those arguments. -/
structure World where
  /-- `f.read_bytes()` by the file's parts relative to the folder; `error` =
  the read raised. -/
  readBytes : List String → Except String (List Nat)
  /-- `create_blob` on the given bytes. -/
  blobFor : List Nat → BlobOutcome
  /-- `GET /git/commits/<sha>` (src/main.py:354-358): `ok` carries
  `rcommit.json()["tree"]["sha"]`; `fail` a non-200 status; `exn` a raised
  network/JSON/key error. -/
  commitTreeOf : String → StepOutcome String
  /-- `create_tree`: `ok` carries `resp_tree.get("sha")`. -/
  treeRes : StepOutcome (Option String)
  /-- `create_commit`: `ok` carries `resp_commit.get("sha")`. -/
  commitRes : StepOutcome (Option String)
  /-- `update_ref`. -/
  updateRes : StepOutcome Unit
  /-- `get_file_sha` result by repo path, for the per-file mode. -/
  fileShaOf : String → Option J
  /-- `create_or_update_file` ok flag by repo path, for the per-file mode. -/
  putOkOf : String → Bool
  /-- `create_or_update_file` response body by repo path. -/
  putBodyOf : String → J
  /-- The branch heads after the per-file loop's contents-API commits; the
  per-file mode advances the branch through opaque server-side commits, so
  its effect on the heads is abstract.  No claim inspects it. -/
  headsAfterPerFile : (String → Option String) → (String → Option String)

/-- `str(f)` for a gathered file: the absolute path joined back together. -/
def fileName (folderParts relParts : List String) : String :=
  joinSlash (folderParts ++ relParts)

/-- One iteration of the blob loop (src/main.py:329-343): read the bytes and
create the blob inside a `try`.  Returns the tree entries contributed, the
failures appended, and the remote calls made (a blob call happens only when
the read did not raise). -/
def blobStep (w : World) (folderParts : List String) (base : String) (e : FsEntry) :
    List TreeEntry × List (String × J) × List BatchCall :=
  match w.readBytes e.relParts with
  | Except.error ex => ([], [(fileName folderParts e.relParts, J.jstr ex)], [])
  | Except.ok bs =>
    match w.blobFor bs with
    | BlobOutcome.exn ex =>
      ([], [(fileName folderParts e.relParts, J.jstr ex)],
       [BatchCall.createBlobC (fileName folderParts e.relParts)])
    | BlobOutcome.resp false body =>
      ([], [(fileName folderParts e.relParts, body)],
       [BatchCall.createBlobC (fileName folderParts e.relParts)])
    | BlobOutcome.resp true body =>
      ([⟨mapRepoPath e.relParts base, "100644", "blob", body.get "sha"⟩], [],
       [BatchCall.createBlobC (fileName folderParts e.relParts)])

/-- The whole blob loop, in file order. -/
def blobPhase (w : World) (folderParts : List String) (base : String) :
    List FsEntry → List TreeEntry × List (String × J) × List BatchCall
  | [] => ([], [], [])
  | e :: es =>
    let s := blobStep w folderParts base e
    let r := blobPhase w folderParts base es
    (s.1 ++ r.1, s.2.1 ++ r.2.1, s.2.2 ++ r.2.2)

/-- Advance one branch head, as a successful `update_ref` does. -/
def updateHead (heads : String → Option String) (branch : String) (sha : Option String) :
    String → Option String :=
  fun b => if b = branch then sha else heads b

/-- Steps 2-7 of the batch (src/main.py:349-373), reached only when no blob
failed: `get_ref` (`heads branch`; `none` covers both a missing branch and a
failed ref lookup), the `GET` of the head commit's tree, `create_tree` on
that base tree, `create_commit` with the observed head as sole parent, and a
non-forced `update_ref`.  Each failure returns at once; only a successful
`update_ref` changes the heads. -/
def batchTail (w : World) (heads : String → Option String) (branch message : String)
    (tree_entries : List TreeEntry) :
    BatchResult × (String → Option String) × List BatchCall :=
  match heads branch with
  | none => (BatchResult.refError, heads, [BatchCall.getRefC branch])
  | some base_commit_sha =>
    match w.commitTreeOf base_commit_sha with
    | StepOutcome.exn e => (BatchResult.raised e, heads,
        [BatchCall.getRefC branch, BatchCall.getCommitC base_commit_sha])
    | StepOutcome.fail _ => (BatchResult.commitFetchError, heads,
        [BatchCall.getRefC branch, BatchCall.getCommitC base_commit_sha])
    | StepOutcome.ok base_tree_sha =>
      match w.treeRes with
      | StepOutcome.exn e => (BatchResult.raised e, heads,
          [BatchCall.getRefC branch, BatchCall.getCommitC base_commit_sha,
           BatchCall.createTreeC tree_entries base_tree_sha])
      | StepOutcome.fail _ => (BatchResult.treeError, heads,
          [BatchCall.getRefC branch, BatchCall.getCommitC base_commit_sha,
           BatchCall.createTreeC tree_entries base_tree_sha])
      | StepOutcome.ok new_tree_sha =>
        match w.commitRes with
        | StepOutcome.exn e => (BatchResult.raised e, heads,
            [BatchCall.getRefC branch, BatchCall.getCommitC base_commit_sha,
             BatchCall.createTreeC tree_entries base_tree_sha,
             BatchCall.createCommitC message new_tree_sha [base_commit_sha]])
        | StepOutcome.fail _ => (BatchResult.commitError, heads,
            [BatchCall.getRefC branch, BatchCall.getCommitC base_commit_sha,
             BatchCall.createTreeC tree_entries base_tree_sha,
             BatchCall.createCommitC message new_tree_sha [base_commit_sha]])
        | StepOutcome.ok new_commit_sha =>
          match w.updateRes with
          | StepOutcome.exn e => (BatchResult.raised e, heads,
              [BatchCall.getRefC branch, BatchCall.getCommitC base_commit_sha,
               BatchCall.createTreeC tree_entries base_tree_sha,
               BatchCall.createCommitC message new_tree_sha [base_commit_sha],
               BatchCall.updateRefC branch new_commit_sha false])
          | StepOutcome.fail _ => (BatchResult.updateError, heads,
              [BatchCall.getRefC branch, BatchCall.getCommitC base_commit_sha,
               BatchCall.createTreeC tree_entries base_tree_sha,
               BatchCall.createCommitC message new_tree_sha [base_commit_sha],
               BatchCall.updateRefC branch new_commit_sha false])
          | StepOutcome.ok _ =>
            (BatchResult.success new_commit_sha, updateHead heads branch new_commit_sha,
              [BatchCall.getRefC branch, BatchCall.getCommitC base_commit_sha,
               BatchCall.createTreeC tree_entries base_tree_sha,
               BatchCall.createCommitC message new_tree_sha [base_commit_sha],
               BatchCall.updateRefC branch new_commit_sha false])

/-- Single-commit batch mode (src/main.py:323-373): run the blob loop; if any
failure was collected, abort before any tree/commit/ref call; otherwise run
the tail. -/
def batchUpload (w : World) (heads : String → Option String)
    (branch message base : String) (folderParts : List String) (files : List FsEntry) :
    BatchResult × (String → Option String) × List BatchCall :=
  let b := blobPhase w folderParts base files
  if b.2.1.isEmpty then
    let t := batchTail w heads branch message b.1
    (t.1, t.2.1, b.2.2 ++ t.2.2)
  else
    (BatchResult.blobFailuresAbort b.2.1, heads, b.2.2)

/-- One iteration of the per-file mode (src/main.py:308-317): a fresh
`get_file_sha` then `create_or_update_file`. -/
def perFileStep (w : World) (folderParts : List String) (base : String) (e : FsEntry) :
    Nat × List (String × J) × List BatchCall :=
  let rp := mapRepoPath e.relParts base
  let calls := [BatchCall.getShaC rp, BatchCall.putFileC rp (w.fileShaOf rp)]
  if w.putOkOf rp then (1, [], calls)
  else (0, [(fileName folderParts e.relParts, w.putBodyOf rp)], calls)

/-- The per-file loop (mode 1), in file order. -/
def perFileLoop (w : World) (folderParts : List String) (base : String) :
    List FsEntry → Nat × List (String × J) × List BatchCall
  | [] => (0, [], [])
  | e :: es =>
    let s := perFileStep w folderParts base e
    let r := perFileLoop w folderParts base es
    (s.1 + r.1, s.2.1 ++ r.2.1, s.2.2 ++ r.2.2)

/-- The two upload modes offered at src/main.py:295. -/
inductive UploadMode
  | perFile
  | batch
deriving DecidableEq

/-- The file list `op_upload_folder` works from (src/main.py:297):
`gather_files_for_folder(local_folder)` — no ignore set is passed, so
`skip_patterns` defaults to empty. -/
def op_upload_folder_files (folderParts : List String) (entries : List FsEntry) :
    List FsEntry :=
  gather_files_for_folder folderParts entries []

/-- The file list `pages_add_file_or_folder` works from (src/main.py:644):
also `gather_files_for_folder(local_folder)` with no ignore set. -/
def pages_add_folder_files (folderParts : List String) (entries : List FsEntry) :
    List FsEntry :=
  gather_files_for_folder folderParts entries []

/-- `op_upload_folder` (src/main.py:289-373) from the point the folder is in
hand: gather the files (no ignore set), return the distinct no-files outcome
before any remote call when the list is empty (src/main.py:298-300), else run
the chosen mode. -/
def op_upload_folder (w : World) (heads : String → Option String)
    (branch message base : String) (folderParts : List String) (entries : List FsEntry)
    (mode : UploadMode) :
    BatchResult × (String → Option String) × List BatchCall :=
  let files := op_upload_folder_files folderParts entries
  if files.isEmpty then (BatchResult.noFiles, heads, [])
  else
    match mode with
    | UploadMode.perFile =>
      let r := perFileLoop w folderParts base files
      (BatchResult.perFileDone r.1 r.2.1, w.headsAfterPerFile heads, r.2.2)
    | UploadMode.batch => batchUpload w heads branch message base folderParts files

/-- Did the blob loop fail for this file (read raised, blob call raised, or
blob call returned not-ok)? -/
def fileFails (w : World) (e : FsEntry) : Bool :=
  match w.readBytes e.relParts with
  | Except.error _ => true
  | Except.ok bs =>
    match w.blobFor bs with
    | BlobOutcome.exn _ => true
    | BlobOutcome.resp ok _ => !ok

/-- The payload recorded for a failed file: the exception text or the blob
response body. -/
def failBody (w : World) (e : FsEntry) : J :=
  match w.readBytes e.relParts with
  | Except.error ex => J.jstr ex
  | Except.ok bs =>
    match w.blobFor bs with
    | BlobOutcome.exn ex => J.jstr ex
    | BlobOutcome.resp _ body => body

/-- Modelled from the spec: the call sequence §4.3 prescribes for steps 2-7,
truncated at the first failing step — `getRef`, resolve the head commit's
tree, `createTree` on that base, `createCommit` with exactly the observed
head as parent, then one non-forced `updateRef`. -/
def specTailTrace (w : World) (heads : String → Option String)
    (branch message : String) (tree_entries : List TreeEntry) : List BatchCall :=
  match heads branch with
  | none => [BatchCall.getRefC branch]
  | some c =>
    [BatchCall.getRefC branch, BatchCall.getCommitC c] ++
    match w.commitTreeOf c with
    | StepOutcome.ok t =>
      [BatchCall.createTreeC tree_entries t] ++
      match w.treeRes with
      | StepOutcome.ok ts =>
        [BatchCall.createCommitC message ts [c]] ++
        match w.commitRes with
        | StepOutcome.ok cs => [BatchCall.updateRefC branch cs false]
        | _ => []
      | _ => []
    | _ => []

/-! ## Recursive remote walker (`gather_rec`, src/main.py:397-410, and
`gather`, src/main.py:736-749)

The remote tree under the walked path is passed in as data; `get_repo_contents`
on a file path answers the file's dict, on a directory path the children
listing (GitHub content trees are acyclic, so a path resolves to one node).
Both walkers in the source have this exact shape and collect `it.get("path")`
strings only. -/

/-- A node of the remote tree: a file with its path and blob sha (the
"version token"), or a directory with its children. -/
inductive RNode
  | rfile (path : String) (sha : String)
  | rdir (path : String) (children : List RNode)

mutual

/-- `gather_rec` (src/main.py:398-409): a file dict appends its path; a
listing appends file items' paths and recurses into dir items. -/
def gather_rec : RNode → List String
  | RNode.rfile p _ => [p]
  | RNode.rdir _ cs => gatherRecList cs

/-- Walking one listing, item by item: a file item contributes its path, a
dir item contributes its own recursive walk — exactly a flattened
`gather_rec` per child. -/
def gatherRecList : List RNode → List String
  | [] => []
  | c :: cs => gather_rec c ++ gatherRecList cs

end

mutual

/-- Modelled from the spec: `walk` per §4.4 — every file-typed entry beneath
the node, each carrying its current version token. -/
def remoteFiles : RNode → List (String × String)
  | RNode.rfile p s => [(p, s)]
  | RNode.rdir _ cs => remoteFilesList cs

/-- The file entries beneath each child, flattened in listing order. -/
def remoteFilesList : List RNode → List (String × String)
  | [] => []
  | c :: cs => remoteFiles c ++ remoteFilesList cs

end

/-! ## Filesystem watch sync loop (`SyncEventHandler`, src/main.py:766-839) -/

/-- The remote calls a watch-event handler can issue. -/
inductive SyncAction
  | lookupSha (path : String)
  | deleteCall (path : String) (sha : String)
deriving DecidableEq

/-- `SyncEventHandler._repo_path` (src/main.py:781-786) combined with the
constructor's `target_repo_base.strip("/")` (src/main.py:774). -/
def syncRepoPath (target_repo_base : String) (relParts : List String) : String :=
  let repo_path := joinSlash relParts
  if stripSlashes target_repo_base ≠ "" then
    stripSlashes target_repo_base ++ "/" ++ repo_path
  else repo_path

/-- `SyncEventHandler._is_ignored` (src/main.py:778-779): some configured
segment occurs among the event path's parts (the absolute path, so the
watched root's own parts are included). -/
def sync_is_ignored (ignore rootParts relParts : List String) : Bool :=
  ignore.any (fun part => (rootParts ++ relParts).contains part)

/-- `SyncEventHandler.on_deleted` (src/main.py:822-839): directory events and
ignored paths do nothing; otherwise the current sha of the mapped repo path
is freshly looked up and the guard `if not sha:` (src/main.py:830) decides by
Python falsiness — a `None` result AND a fetched empty-string sha both mean
warn-and-return without a delete call; only a non-empty sha leads to
`delete_file` with exactly that sha.  `shaOf` is the `get_file_sha` result by
path; the sha is the `"sha"` string of the file dict. -/
def on_deleted (ignore rootParts : List String) (target_repo_base : String)
    (shaOf : String → Option String) (is_directory : Bool) (relParts : List String) :
    List SyncAction :=
  if is_directory then []
  else if sync_is_ignored ignore rootParts relParts then []
  else
    let rp := syncRepoPath target_repo_base relParts
    match shaOf rp with
    | none => [SyncAction.lookupSha rp]
    | some sha =>
      if sha = "" then [SyncAction.lookupSha rp]
      else [SyncAction.lookupSha rp, SyncAction.deleteCall rp sha]

/-- The default `sync_ignore` configuration (src/main.py:64). -/
def defaultSyncIgnore : List String := [".git", "__pycache__"]

/-! ## Concrete sample inputs used by the witness theorems -/

/-- A world whose one blob creation fails with an HTTP error. -/
def wBlobFail : World :=
  { readBytes := fun _ => Except.ok [1, 2],
    blobFor := fun _ => BlobOutcome.resp false (J.jstr "HTTP 502"),
    commitTreeOf := fun _ => StepOutcome.ok "t0",
    treeRes := StepOutcome.ok (some "nt"),
    commitRes := StepOutcome.ok (some "nc"),
    updateRes := StepOutcome.ok (),
    fileShaOf := fun _ => none,
    putOkOf := fun _ => true,
    putBodyOf := fun _ => J.null,
    headsAfterPerFile := fun h => h }

/-- A branch-head state with every branch at commit `h0`. -/
def heads0 : String → Option String := fun _ => some "h0"

/-- One scanned file, `a.txt` directly under the folder. -/
def entry0 : FsEntry := ⟨["a.txt"], true⟩

/-! # Theorems

First the supporting lemmas about `'/'`-joined strings and the blob loop,
then one theorem per claim of the specification, each with its witness or
counterexample where called for. -/

theorem splitSlash_ne_nil : ∀ l, splitSlash l ≠ []
  | [] => by simp [splitSlash]
  | c :: cs => by
    simp only [splitSlash]
    split
    · simp
    · split
      · simp
      · simp

theorem splitSlash_append : ∀ a b, splitSlash (a ++ '/' :: b) = splitSlash a ++ splitSlash b
  | [], b => by simp [splitSlash]
  | c :: cs, b => by
    have ih := splitSlash_append cs b
    by_cases hc : c = '/'
    · subst hc
      simp [splitSlash, ih]
    · have h1 : (c == '/') = false := by simp [hc]
      rcases h : splitSlash cs with _ | ⟨t, ts⟩
      · exact absurd h (splitSlash_ne_nil cs)
      · simp [splitSlash, h1, ih, h]

theorem splitSlash_noslash : ∀ l, (∀ c ∈ l, c ≠ '/') → splitSlash l = [String.mk l]
  | [], _ => rfl
  | c :: cs, h => by
    have hc : (c == '/') = false := by simp [h c (by simp)]
    have ih := splitSlash_noslash cs (fun x hx => h x (by simp [hx]))
    simp [splitSlash, hc, ih]

theorem data_join_cons (s : String) (q : String) (ps : List String) :
    (joinSlash (s :: q :: ps)).data = s.data ++ '/' :: (joinSlash (q :: ps)).data := by
  show (s ++ "/" ++ joinSlash (q :: ps)).data = _
  rw [String.data_append, String.data_append, List.append_assoc]
  rfl

theorem segments_join_noslash : ∀ parts : List String, parts ≠ [] →
    (∀ p ∈ parts, noSlashIn p) → segments (joinSlash parts) = parts
  | [], h, _ => absurd rfl h
  | [p], _, hn => by
    have := splitSlash_noslash p.data (hn p (by simp))
    simpa [segments, joinSlash] using this
  | p :: q :: ps, _, hn => by
    have ih := segments_join_noslash (q :: ps) (by simp)
      (fun x hx => hn x (by simp [hx]))
    have h1 := splitSlash_noslash p.data (hn p (by simp))
    simp only [segments, data_join_cons, splitSlash_append]
    rw [h1]
    simp only [segments] at ih
    rw [ih]
    simp

theorem segments_join_head : ∀ (s : String) (parts : List String),
    (∀ p ∈ parts, noSlashIn p) → segments (joinSlash (s :: parts)) = segments s ++ parts
  | s, [], _ => by simp [segments, joinSlash]
  | s, q :: ps, hn => by
    simp only [segments, data_join_cons, splitSlash_append]
    have := segments_join_noslash (q :: ps) (by simp) hn
    simp only [segments] at this
    rw [this]

theorem rstripSlash_head : ∀ l, rstripSlash l = [] ∨ (rstripSlash l).head? = l.head?
  | [] => Or.inl rfl
  | c :: cs => by
    rcases h : rstripSlash cs with _ | ⟨d, ds⟩
    · by_cases hc : c = '/'
      · exact Or.inl (by simp [rstripSlash, h, hc])
      · exact Or.inr (by simp [rstripSlash, h, hc])
    · exact Or.inr (by simp [rstripSlash, h])

theorem dropWhile_slash_head : ∀ (l : List Char) (c : Char),
    (l.dropWhile (fun c => c == '/')).head? = some c → c ≠ '/'
  | [], c => by simp
  | x :: xs, c => by
    by_cases hx : x = '/'
    · intro h
      rw [List.dropWhile_cons, if_pos (by simp [hx])] at h
      exact dropWhile_slash_head xs c h
    · intro h
      rw [List.dropWhile_cons, if_neg (by simp [hx])] at h
      simp at h
      subst h
      exact hx

theorem stripSlashes_head (s : String) (c : Char)
    (h : (stripSlashes s).data.head? = some c) : c ≠ '/' := by
  unfold stripSlashes at h
  rcases rstripSlash_head (s.data.dropWhile (fun c => c == '/')) with h1 | h1
  · rw [show (String.mk (rstripSlash (s.data.dropWhile (fun c => c == '/')))).data
        = rstripSlash (s.data.dropWhile (fun c => c == '/')) from rfl, h1] at h
    simp at h
  · rw [show (String.mk (rstripSlash (s.data.dropWhile (fun c => c == '/')))).data
        = rstripSlash (s.data.dropWhile (fun c => c == '/')) from rfl, h1] at h
    exact dropWhile_slash_head s.data c h

theorem join_head (p : String) (ps : List String) (hp : p ≠ "") :
    (joinSlash (p :: ps)).data.head? = p.data.head? := by
  have hd : p.data ≠ [] := by
    intro h
    apply hp
    cases p with
    | mk d =>
      simp only [String.data] at h
      subst h
      rfl
  cases ps with
  | nil => rfl
  | cons q qs =>
    rw [data_join_cons]
    cases hx : p.data with
    | nil => exact absurd hx hd
    | cons a as => simp [hx]

theorem head?_mem {α : Type} {l : List α} {c : α} (h : l.head? = some c) : c ∈ l := by
  cases l with
  | nil => simp at h
  | cons a as => simp at h; subst h; simp

/-- Claim C4 (amended): for a file under the local root whose path parts are
non-empty and `'/'`-free, and a remote base prefix whose stripped form is
non-empty (when the prefix is non-empty) and free of `'.'`/`'..'` segments,
`path_to_repo_path` yields a string with no `'.'` or `'..'` segment and no
leading `'/'`, and it is deterministic.  The extra condition on the prefix is
forced by `path_mapping_counterexample`: the source strips only `'/'` from
the prefix and filters `'.'`/`'..'` only out of the file's relative parts, so
the prefix's own segments pass through. -/
theorem path_mapping_normalized (base file : List String) (rb s : String)
    (h : path_to_repo_path base file rb = some s)
    (hparts : ∀ p ∈ file, p ≠ "" ∧ noSlashIn p)
    (hbase : rb ≠ "" → stripSlashes rb ≠ "" ∧
      ∀ t ∈ segments (stripSlashes rb), t ≠ "." ∧ t ≠ "..") :
    (∀ t ∈ segments s, t ≠ "." ∧ t ≠ "..") ∧
    s.data.head? ≠ some '/' ∧
    (∀ s2, path_to_repo_path base file rb = some s2 → s2 = s) := by
  have hdet : ∀ s2, path_to_repo_path base file rb = some s2 → s2 = s := by
    intro s2 h2
    rw [h] at h2
    exact (Option.some_inj.mp h2).symm
  unfold path_to_repo_path relative_to at h
  split at h
  case isFalse => simp at h
  case isTrue hc =>
  simp only [Option.map_some'] at h
  have hs : s = mapRepoPath (file.drop base.length) rb := (Option.some_inj.mp h).symm
  set rel := file.drop base.length with hrel
  set parts := rel.filter (fun p => !(p == "." || p == "..")) with hparts_def
  have hmem : ∀ p ∈ parts, p ∈ file := by
    intro p hp
    exact List.drop_subset _ _ (List.mem_of_mem_filter hp)
  have hpn : ∀ p ∈ parts, p ≠ "" ∧ noSlashIn p := fun p hp => hparts p (hmem p hp)
  have hdots : ∀ p ∈ parts, p ≠ "." ∧ p ≠ ".." := by
    intro p hp
    have := List.of_mem_filter hp
    constructor <;> intro he <;> subst he <;> simp at this
  by_cases hrb : rb = ""
  · have hs2 : s = joinSlash parts := by
      rw [hs]; unfold mapRepoPath; rw [if_neg (by simp [hrb])]
    cases hp : parts with
    | nil =>
      have hsegs : segments s = [""] := by rw [hs2, hp]; rfl
      have hhd : s.data.head? = none := by rw [hs2, hp]; rfl
      refine ⟨?_, ?_, hdet⟩
      · intro t ht
        rw [hsegs] at ht
        simp at ht
        subst ht
        exact ⟨by decide, by decide⟩
      · simp [hhd]
    | cons q qs =>
      have hseg : segments s = parts := by
        rw [hs2]
        exact hp ▸ segments_join_noslash (q :: qs) (by simp)
          (fun x hx => (hpn x (hp ▸ hx)).2)
      refine ⟨?_, ?_, hdet⟩
      · intro t ht
        exact hdots t (hseg ▸ ht)
      · have hh : s.data.head? = q.data.head? := by
          rw [hs2, hp]
          exact join_head q qs (hpn q (by simp [hp])).1
        rw [hh]
        intro hhd
        exact (hpn q (by simp [hp])).2 '/' (head?_mem hhd) rfl
  · obtain ⟨hstr, hbseg⟩ := hbase hrb
    have hs2 : s = joinSlash (stripSlashes rb :: parts) := by
      rw [hs]; unfold mapRepoPath; rw [if_pos (by simp [hrb])]
    have hseg : segments s = segments (stripSlashes rb) ++ parts := by
      rw [hs2]
      exact segments_join_head (stripSlashes rb) parts (fun x hx => (hpn x hx).2)
    refine ⟨?_, ?_, hdet⟩
    · intro t ht
      rw [hseg] at ht
      rcases List.mem_append.mp ht with h1 | h1
      · exact hbseg t h1
      · exact hdots t h1
    · have hh : s.data.head? = (stripSlashes rb).data.head? := by
        rw [hs2]
        exact join_head (stripSlashes rb) parts hstr
      rw [hh]
      intro hhd
      exact stripSlashes_head rb '/' hhd rfl

/-- Claim C4, counterexample to the claim as stated: with remote base `".."`
the result has a `".."` segment, and with remote base `"/"` it has a leading
`'/'`, so the claimed invariant fails for some base prefixes. -/
theorem path_mapping_counterexample :
    path_to_repo_path [] ["a.txt"] ".." = some "../a.txt" ∧
    ".." ∈ segments "../a.txt" ∧
    path_to_repo_path [] ["a.txt"] "/" = some "/a.txt" ∧
    ("/a.txt").data.head? = some '/' := by
  refine ⟨by decide, by decide, by decide, by decide⟩

/-- Claim C4, witness: the amended theorem applied at the concrete mapping of
`docs/a.txt` under base `site`. -/
theorem path_mapping_witness :
    path_to_repo_path [] ["docs", "a.txt"] "site" = some "site/docs/a.txt" ∧
    (∀ t ∈ segments "site/docs/a.txt", t ≠ "." ∧ t ≠ "..") ∧
    ("site/docs/a.txt").data.head? ≠ some '/' := by
  have h : path_to_repo_path [] ["docs", "a.txt"] "site" = some "site/docs/a.txt" := by decide
  have main := path_mapping_normalized [] ["docs", "a.txt"] "site" "site/docs/a.txt" h
    (by decide) (by decide)
  exact ⟨h, main.1, main.2.1⟩

/-- Claim C5: a file entry appears in `gather_files_for_folder`'s output iff
it is a file and none of its path segments (the scanned folder's parts
followed by the entry's relative parts — `p.parts` of the absolute path)
equals a member of the ignore set; directories are never yielded, since
membership forces `isFile = true`. -/
theorem scanner_ignore_correct (folderParts : List String) (entries : List FsEntry)
    (skip_patterns : List String) (e : FsEntry) :
    e ∈ gather_files_for_folder folderParts entries skip_patterns ↔
      e ∈ entries ∧ e.isFile = true ∧
        ∀ seg ∈ folderParts ++ e.relParts, seg ∉ skip_patterns := by
  simp only [gather_files_for_folder, List.mem_filter, Bool.and_eq_true,
    Bool.not_eq_true', List.any_eq_false, List.contains, List.elem_iff]
  constructor
  · rintro ⟨h1, h2, h3⟩
    exact ⟨h1, h2, fun seg hseg hsk => h3 seg hsk hseg⟩
  · rintro ⟨h1, h2, h3⟩
    exact ⟨h1, h2, fun part hp hmem => h3 part hmem hp⟩

theorem blobStep_fails (w : World) (fp : List String) (base : String) (e : FsEntry) :
    (blobStep w fp base e).2.1 =
      if fileFails w e then [(fileName fp e.relParts, failBody w e)] else [] := by
  unfold blobStep fileFails failBody
  rcases h : w.readBytes e.relParts with ex | bs
  · simp
  · rcases hb : w.blobFor bs with ex | ⟨ok, body⟩
    · simp [hb]
    · cases ok <;> simp [hb]

theorem blobPhase_fails (w : World) (fp : List String) (base : String) : ∀ files : List FsEntry,
    (blobPhase w fp base files).2.1 =
      (files.filter (fun e => fileFails w e)).map
        (fun e => (fileName fp e.relParts, failBody w e))
  | [] => rfl
  | e :: es => by
    have ih := blobPhase_fails w fp base es
    by_cases h : fileFails w e
    · simp [blobPhase, ih, blobStep_fails, h]
    · simp [blobPhase, ih, blobStep_fails, h]

theorem blobPhase_calls (w : World) (fp : List String) (base : String) : ∀ files : List FsEntry,
    ∀ c ∈ (blobPhase w fp base files).2.2, ∃ n, c = BatchCall.createBlobC n
  | [] => by simp [blobPhase]
  | e :: es => by
    intro c hc
    simp only [blobPhase, List.mem_append] at hc
    rcases hc with hc | hc
    · revert hc
      unfold blobStep
      rcases h : w.readBytes e.relParts with ex | bs
      · simp
      · rcases hb : w.blobFor bs with ex | ⟨ok, body⟩
        · simp [hb]
          exact fun hc => ⟨_, hc⟩
        · cases ok <;> simp [hb] <;> exact fun hc => ⟨_, hc⟩
    · exact blobPhase_calls w fp base es c hc

/-- Claim C1: if any file of the batch fails in the blob loop (its read
raises, or its `create_blob` call raises or returns a failure), the batch
aborts: the result is the failure report, the branch heads are unchanged,
every remote call made was a blob creation (no `getRef`, `createTree`,
`createCommit` or `updateRef`), and the reported list contains exactly the
failed files, in order, with their error payloads. -/
theorem batch_abort_on_blob_failure (w : World) (heads : String → Option String)
    (branch message base : String) (folderParts : List String) (files : List FsEntry)
    (h : (blobPhase w folderParts base files).2.1 ≠ []) :
    (batchUpload w heads branch message base folderParts files).1 =
      BatchResult.blobFailuresAbort (blobPhase w folderParts base files).2.1 ∧
    (batchUpload w heads branch message base folderParts files).2.1 = heads ∧
    (∀ c ∈ (batchUpload w heads branch message base folderParts files).2.2,
      ∃ n, c = BatchCall.createBlobC n) ∧
    (blobPhase w folderParts base files).2.1 =
      (files.filter (fun e => fileFails w e)).map
        (fun e => (fileName folderParts e.relParts, failBody w e)) := by
  have hne : (blobPhase w folderParts base files).2.1.isEmpty = false := by
    simpa [List.isEmpty_iff] using h
  refine ⟨?_, ?_, ?_, blobPhase_fails w folderParts base files⟩ <;>
    simp [batchUpload, hne]
  exact blobPhase_calls w folderParts base files

/-- Claim C1, witness: one file whose blob creation returns an HTTP failure;
the batch aborts with the branch heads untouched. -/
theorem batch_abort_witness :
    (blobPhase wBlobFail [] "" [entry0]).2.1 ≠ [] ∧
    (batchUpload wBlobFail heads0 "main" "msg" "" [] [entry0]).1 =
      BatchResult.blobFailuresAbort (blobPhase wBlobFail [] "" [entry0]).2.1 ∧
    (batchUpload wBlobFail heads0 "main" "msg" "" [] [entry0]).2.1 = heads0 := by
  have h : (blobPhase wBlobFail [] "" [entry0]).2.1 ≠ [] := by
    simp [blobPhase, blobStep, wBlobFail, entry0]
  have main := batch_abort_on_blob_failure wBlobFail heads0 "main" "msg" "" [] [entry0] h
  exact ⟨h, main.1, main.2.1⟩

/-- Claim C3: after a fully successful blob phase, the remote calls of the
batch tail are exactly the spec's ordered sequence — `getRef`, the head
commit's tree lookup, `createTree` on that base tree, `createCommit` with
exactly the observed head as sole parent, then one non-forced `updateRef` —
truncated at the first failing step (`specTailTrace`); a success updates the
one branch and ends with the non-forced `updateRef` as the last call, any
non-success outcome leaves the branch heads unchanged, and `batchUpload`
composes the blob calls with exactly this tail. -/
theorem batch_success_path_order (w : World) (heads : String → Option String)
    (branch message : String) (tree_entries : List TreeEntry)
    (base : String) (folderParts : List String) (files : List FsEntry) :
    (batchTail w heads branch message tree_entries).2.2 =
      specTailTrace w heads branch message tree_entries ∧
    (∀ s, (batchTail w heads branch message tree_entries).1 = BatchResult.success s →
      (batchTail w heads branch message tree_entries).2.1 = updateHead heads branch s ∧
      (batchTail w heads branch message tree_entries).2.2.getLast? =
        some (BatchCall.updateRefC branch s false)) ∧
    ((∀ s, (batchTail w heads branch message tree_entries).1 ≠ BatchResult.success s) →
      (batchTail w heads branch message tree_entries).2.1 = heads) ∧
    ((blobPhase w folderParts base files).2.1 = [] →
      batchUpload w heads branch message base folderParts files =
        ((batchTail w heads branch message (blobPhase w folderParts base files).1).1,
         (batchTail w heads branch message (blobPhase w folderParts base files).1).2.1,
         (blobPhase w folderParts base files).2.2 ++
           (batchTail w heads branch message (blobPhase w folderParts base files).1).2.2)) := by
  refine ⟨?_, ?_, ?_, ?_⟩
  case _ =>
    rcases h1 : heads branch with _ | c
    · simp [batchTail, specTailTrace, h1]
    · rcases h2 : w.commitTreeOf c with e | b | t <;>
        rcases h3 : w.treeRes with e3 | b3 | ts <;>
          rcases h4 : w.commitRes with e4 | b4 | cs <;>
            rcases h5 : w.updateRes with e5 | b5 | u <;>
              simp [batchTail, specTailTrace, h1, h2, h3, h4, h5]
  case _ =>
    intro s hs
    rcases h1 : heads branch with _ | c
    · simp [batchTail, h1] at hs
    · rcases h2 : w.commitTreeOf c with e | b | t <;>
        rcases h3 : w.treeRes with e3 | b3 | ts <;>
          rcases h4 : w.commitRes with e4 | b4 | cs <;>
            rcases h5 : w.updateRes with e5 | b5 | u <;>
              simp [batchTail, h1, h2, h3, h4, h5] at hs ⊢ <;>
                subst hs <;> exact ⟨rfl, rfl⟩
  case _ =>
    intro hns
    rcases h1 : heads branch with _ | c
    · simp [batchTail, h1]
    · rcases h2 : w.commitTreeOf c with e | b | t
      · simp [batchTail, h1, h2]
      · simp [batchTail, h1, h2]
      · rcases h3 : w.treeRes with e3 | b3 | ts
        · simp [batchTail, h1, h2, h3]
        · simp [batchTail, h1, h2, h3]
        · rcases h4 : w.commitRes with e4 | b4 | cs
          · simp [batchTail, h1, h2, h3, h4]
          · simp [batchTail, h1, h2, h3, h4]
          · rcases h5 : w.updateRes with e5 | b5 | u
            · simp [batchTail, h1, h2, h3, h4, h5]
            · simp [batchTail, h1, h2, h3, h4, h5]
            · exact absurd (by simp [batchTail, h1, h2, h3, h4, h5]) (hns cs)
  case _ =>
    intro hb
    have hne : (blobPhase w folderParts base files).2.1.isEmpty = true := by
      simp [hb]
    simp [batchUpload, hne]

/-- Claim C8: when the scan of the local folder yields no files, the
folder-upload operation (either mode) returns the distinct no-changes
outcome, the branch heads are untouched and no remote call of any kind is
issued. -/
theorem upload_folder_no_files (w : World) (heads : String → Option String)
    (branch message base : String) (folderParts : List String) (entries : List FsEntry)
    (mode : UploadMode) (h : op_upload_folder_files folderParts entries = []) :
    op_upload_folder w heads branch message base folderParts entries mode =
      (BatchResult.noFiles, heads, []) := by
  simp [op_upload_folder, h]

/-- Claim C8, witness: a folder containing only a directory entry. -/
theorem upload_folder_no_files_witness :
    op_upload_folder_files ["root"] [⟨["sub"], false⟩] = [] ∧
    op_upload_folder wBlobFail heads0 "main" "msg" "" ["root"] [⟨["sub"], false⟩]
        UploadMode.batch = (BatchResult.noFiles, heads0, []) := by
  have h : op_upload_folder_files ["root"] [⟨["sub"], false⟩] = [] := rfl
  exact ⟨h, upload_folder_no_files wBlobFail heads0 "main" "msg" "" ["root"]
    [⟨["sub"], false⟩] UploadMode.batch h⟩

/-- Claim C9: the folder-upload operations and the Pages folder add gather
their file lists with an empty ignore set, so the list is every file under
the folder — a file whose path contains `.git` included — while the watch
handler with the configured default ignore set skips exactly such a path. -/
theorem upload_ignore_set_unused :
    (∀ (folderParts : List String) (entries : List FsEntry),
      op_upload_folder_files folderParts entries = entries.filter (fun e => e.isFile) ∧
      pages_add_folder_files folderParts entries = entries.filter (fun e => e.isFile)) ∧
    (∀ (folderParts : List String) (entries : List FsEntry) (e : FsEntry),
      e ∈ entries → e.isFile = true → e ∈ op_upload_folder_files folderParts entries) ∧
    (∀ (rootParts : List String) (target_repo_base : String)
        (shaOf : String → Option String) (relParts : List String),
      ".git" ∈ rootParts ++ relParts →
      on_deleted defaultSyncIgnore rootParts target_repo_base shaOf false relParts = []) := by
  have hfilter : ∀ (folderParts : List String) (entries : List FsEntry),
      gather_files_for_folder folderParts entries [] = entries.filter (fun e => e.isFile) := by
    intro folderParts entries
    unfold gather_files_for_folder
    apply List.filter_congr
    intro e he
    simp
  refine ⟨?_, ?_, ?_⟩
  · intro fp entries
    exact ⟨hfilter fp entries, hfilter fp entries⟩
  · intro fp entries e he hf
    unfold op_upload_folder_files
    rw [hfilter fp entries]
    exact List.mem_filter.mpr ⟨he, by simp [hf]⟩
  · intro rootParts base shaOf relParts hg
    have hig : sync_is_ignored defaultSyncIgnore rootParts relParts = true := by
      simp [sync_is_ignored, defaultSyncIgnore, List.contains, List.elem_iff]
      exact Or.inl (List.mem_append.mp hg)
    simp [on_deleted, hig]

/-- Claim C2 (amended): whenever the transport returns an HTTP response whose
body parses as JSON, every client operation returns an explicit value —
`api_request` the response itself, each wrapper its `(ok, value)` pair — and
the two guarded GET wrappers (and `get_file_sha` over them) also return
explicitly for any non-200 response with an unparseable body.  The claim as
stated (never an exception, for every transport outcome) is refuted by
`client_raises_counterexample`: a network-level transport exception, and a
malformed body on the unguarded parse paths, propagate out of the client. -/
theorem client_explicit_results :
    (∀ r : Response, api_request (Except.ok r) = Except.ok r) ∧
    (∀ r : Response, r.json.isSome = true →
      exOk (get_repo_contents (Except.ok r)) = true ∧
      exOk (get_ref (Except.ok r)) = true ∧
      exOk (get_file_sha (Except.ok r)) = true ∧
      exOk (create_blob (Except.ok r)) = true ∧
      exOk (create_tree (Except.ok r)) = true ∧
      exOk (create_commit (Except.ok r)) = true ∧
      exOk (update_ref (Except.ok r)) = true ∧
      exOk (create_or_update_file (Except.ok r)) = true ∧
      exOk (delete_file (Except.ok r)) = true) ∧
    (∀ r : Response, r.status ≠ 200 →
      exOk (get_repo_contents (Except.ok r)) = true ∧
      exOk (get_ref (Except.ok r)) = true ∧
      exOk (get_file_sha (Except.ok r)) = true) := by
  refine ⟨fun r => rfl, ?_, ?_⟩
  · intro r h
    obtain ⟨j, hj⟩ := Option.isSome_iff_exists.mp h
    have hok : exOk (okBranch r) = true := by
      simp [okBranch, jsonOrRaise, hj, exOk]
    have hraw : exOk (failBranchRaw r) = true := by
      cases hc : r.content <;> simp [failBranchRaw, bodyOrStatus, jsonOrRaise, hj, hc, exOk]
    have hguard : exOk (failBranchGuarded r) = true := by
      simp [failBranchGuarded, hj, exOk]
    refine ⟨?_, ?_, ?_, ?_, ?_, ?_, ?_, ?_, ?_⟩
    · by_cases hs : (r.status == 200) = true <;>
        simp [get_repo_contents, api_request, hs, hok, hguard]
    · by_cases hs : (r.status == 200) = true <;>
        simp [get_ref, api_request, hs, hok, hguard]
    · by_cases hs : (r.status == 200) = true
      · cases j <;>
          simp [get_file_sha, get_repo_contents, api_request, hs, okBranch, jsonOrRaise, hj, exOk]
      · simp [get_file_sha, get_repo_contents, api_request, hs, failBranchGuarded, hj, exOk]
    · by_cases hs : (r.status == 201) = true <;>
        simp [create_blob, api_request, hs, hok, hraw]
    · by_cases hs : (r.status == 201) = true <;>
        simp [create_tree, api_request, hs, hok, hraw]
    · by_cases hs : (r.status == 201) = true <;>
        simp [create_commit, api_request, hs, hok, hraw]
    · by_cases hs : (r.status == 200) = true <;>
        simp [update_ref, api_request, hs, hok, hraw]
    · cases hc : r.content <;>
        simp [create_or_update_file, api_request, bodyOrStatus, jsonOrRaise, hj, hc, exOk]
    · cases hc : r.content <;>
        simp [delete_file, api_request, bodyOrStatus, jsonOrRaise, hj, hc, exOk]
  · intro r hr
    have hs : (r.status == 200) = false := by simpa using hr
    have hguard : exOk (failBranchGuarded r) = true := by
      cases hj : r.json <;> simp [failBranchGuarded, hj, exOk]
    refine ⟨?_, ?_, ?_⟩
    · simp [get_repo_contents, api_request, hs, hguard]
    · simp [get_ref, api_request, hs, hguard]
    · cases hj : r.json <;>
        simp [get_file_sha, get_repo_contents, api_request, hs, failBranchGuarded, hj, exOk]

/-- Claim C2, counterexample: a transport-level exception propagates through
`get_ref` and `create_blob` unchanged, and a 200 response with a body that is
not JSON makes `get_repo_contents` raise (`create_tree` likewise on a
malformed non-201 body) — so failure is not always returned as a value. -/
theorem client_raises_counterexample :
    get_ref (Except.error "ConnectionError") = Except.error "ConnectionError" ∧
    create_blob (Except.error "ConnectionError") = Except.error "ConnectionError" ∧
    get_repo_contents (Except.ok ⟨200, true, none⟩) = Except.error "JSONDecodeError" ∧
    create_tree (Except.ok ⟨500, true, none⟩) = Except.error "JSONDecodeError" :=
  ⟨rfl, rfl, rfl, rfl⟩

/-- Claim C10 (amended): whenever the request completes with an HTTP
response, `get_file_sha` returns `None` uniformly for every case that is not
a 200 single-file object — any non-200 status (missing path, Conflict, any
HTTP error) and a 200 directory listing — so those callers cannot tell
absence from HTTP-level failure; but a network-level transport exception
propagates as an exception rather than returning `None`
(`get_file_sha_transport_counterexample`). -/
theorem get_file_sha_uniform_none :
    (∀ r : Response, r.status ≠ 200 → get_file_sha (Except.ok r) = Except.ok none) ∧
    (∀ (r : Response) (items : List J), r.status = 200 → r.json = some (J.arr items) →
      get_file_sha (Except.ok r) = Except.ok none) ∧
    (∀ r r2 : Response, r.status ≠ 200 → r2.status ≠ 200 →
      get_file_sha (Except.ok r) = get_file_sha (Except.ok r2)) := by
  have h1 : ∀ r : Response, r.status ≠ 200 → get_file_sha (Except.ok r) = Except.ok none := by
    intro r hr
    have hb : (r.status == 200) = false := by simpa using hr
    unfold get_file_sha get_repo_contents api_request failBranchGuarded
    cases hj : r.json with
    | none => simp [hb, hj]
    | some j => simp [hb, hj]
  refine ⟨h1, ?_, ?_⟩
  · intro r items hr hj
    have hb : (r.status == 200) = true := by simpa using hr
    unfold get_file_sha get_repo_contents api_request okBranch jsonOrRaise
    simp [hb, hj]
  · intro r r2 hr hr2
    rw [h1 r hr, h1 r2 hr2]

/-- Claim C10, counterexample: on a network-level transport error,
`get_file_sha` does not return `None` — the exception propagates. -/
theorem get_file_sha_transport_counterexample :
    get_file_sha (Except.error "ConnectionError") = Except.error "ConnectionError" ∧
    get_file_sha (Except.error "ConnectionError") ≠ Except.ok none := by
  refine ⟨rfl, ?_⟩
  intro h
  exact Except.noConfusion h

mutual

theorem gatherRec_aux : ∀ n : RNode, gather_rec n = (remoteFiles n).map Prod.fst
  | RNode.rfile p s => rfl
  | RNode.rdir p cs => by
    simp only [gather_rec, remoteFiles]
    exact gatherRecList_aux cs

theorem gatherRecList_aux : ∀ cs : List RNode,
    gatherRecList cs = (remoteFilesList cs).map Prod.fst
  | [] => rfl
  | c :: cs => by
    simp only [gatherRecList, remoteFilesList, List.map_append]
    rw [gatherRec_aux c, gatherRecList_aux cs]

end

/-- Claim C6 (amended): the walker's output is exactly the paths of the
file-typed entries beneath the walked node, in listing order, recursing into
every dir-typed entry — the path component of the spec's `walk` — but the
entries are bare paths and do not carry version tokens
(`walker_token_counterexample`); the callers re-fetch each path's token. -/
theorem walker_files_exact : ∀ n : RNode, gather_rec n = (remoteFiles n).map Prod.fst :=
  gatherRec_aux

/-- Claim C6, counterexample: two remote trees that differ only in their
version tokens produce identical walker output, so the returned entries
cannot carry the current version token. -/
theorem walker_token_counterexample :
    gather_rec (RNode.rdir "" [RNode.rfile "a.txt" "sha1"]) =
      gather_rec (RNode.rdir "" [RNode.rfile "a.txt" "sha2"]) ∧
    remoteFiles (RNode.rdir "" [RNode.rfile "a.txt" "sha1"]) ≠
      remoteFiles (RNode.rdir "" [RNode.rfile "a.txt" "sha2"]) := by
  refine ⟨rfl, ?_⟩
  intro h
  simp [remoteFiles, remoteFilesList] at h

/-- Claim C7 (amended): for a non-directory, non-ignored deleted event, the
handler freshly resolves the mapped repo path's current sha; when it is
absent OR empty — the source's `if not sha:` guard judges the fetched value
by Python falsiness — only the lookup happens and no delete call is issued,
and when it is a non-empty sha the handler issues exactly one delete call
carrying that freshly fetched sha.  The `or empty` is forced by
`on_deleted_empty_sha_counterexample`: a fetched sha of `""` is present, yet
the program warns and returns without calling `delete_file`. -/
theorem on_deleted_fresh_token (ignore rootParts : List String) (target_repo_base : String)
    (shaOf : String → Option String) (relParts : List String)
    (hig : sync_is_ignored ignore rootParts relParts = false) :
    ((shaOf (syncRepoPath target_repo_base relParts) = none ∨
      shaOf (syncRepoPath target_repo_base relParts) = some "") →
      on_deleted ignore rootParts target_repo_base shaOf false relParts =
        [SyncAction.lookupSha (syncRepoPath target_repo_base relParts)] ∧
      ∀ p sh, SyncAction.deleteCall p sh ∉
        on_deleted ignore rootParts target_repo_base shaOf false relParts) ∧
    (∀ sh, sh ≠ "" → shaOf (syncRepoPath target_repo_base relParts) = some sh →
      on_deleted ignore rootParts target_repo_base shaOf false relParts =
        [SyncAction.lookupSha (syncRepoPath target_repo_base relParts),
         SyncAction.deleteCall (syncRepoPath target_repo_base relParts) sh]) := by
  constructor
  · intro hn
    rcases hn with hn | hn
    · exact ⟨by simp [on_deleted, hig, hn], fun p sh => by simp [on_deleted, hig, hn]⟩
    · exact ⟨by simp [on_deleted, hig, hn], fun p sh => by simp [on_deleted, hig, hn]⟩
  · intro sh hne hs
    simp [on_deleted, hig, hs, hne]

/-- Claim C7, counterexample to the claim as stated: with a freshly fetched
token that is present but empty (`some ""` — a file dict with `"sha": ""`),
the handler issues no delete call at all, so "otherwise it calls deleteFile
with that freshly fetched token" fails for a token that is not absent. -/
theorem on_deleted_empty_sha_counterexample :
    (fun _ => some "" : String → Option String) "a.txt" = some "" ∧
    on_deleted [] [] "" (fun _ => some "") false ["a.txt"] =
      [SyncAction.lookupSha "a.txt"] ∧
    SyncAction.deleteCall "a.txt" "" ∉
      on_deleted [] [] "" (fun _ => some "") false ["a.txt"] := by
  refine ⟨rfl, by decide, by decide⟩

/-- Claim C7, witness: deleting `a.txt` whose remote sha is the non-empty
`s1` issues the delete call with exactly that sha. -/
theorem on_deleted_witness :
    sync_is_ignored [".git"] ["root"] ["a.txt"] = false ∧
    on_deleted [".git"] ["root"] "" (fun _ => some "s1") false ["a.txt"] =
      [SyncAction.lookupSha "a.txt", SyncAction.deleteCall "a.txt" "s1"] := by
  have hig : sync_is_ignored [".git"] ["root"] ["a.txt"] = false := by decide
  have main := on_deleted_fresh_token [".git"] ["root"] "" (fun _ => some "s1") ["a.txt"] hig
  exact ⟨hig, main.2 "s1" (by decide) rfl⟩

end GTFA
